import Mathlib

/-!
Shallow embedding of the chess-mcp core: the `Game` match entity
(src/core/game/Game.ts), the `GameManager` session manager with admission
control (src/core/game/GameManager.ts), and the in-memory storage adapter
(src/core/storage/InMemoryAdapter.ts).

The external rules engine (chess.js, wrapped by src/core/chess/ChessEngine.ts)
is out of scope for the core and is modelled abstractly as a `ChessRules`
record of pure functions over FEN strings; every definition here is
parametrised over it.  Timestamps (`new Date()`) are modelled as explicit
`Nat` tick parameters; generated UUIDs as explicit `String` parameters.
JavaScript `Map`s (insertion ordered) are modelled as association lists with
replace-in-place/append-at-end update semantics.
-/

namespace ChessMCP

/-- Game status enum (constants/GameConstants.ts, `GAME_STATUS`). -/
inductive GameStatus where
  | active
  | paused
  | completed
deriving DecidableEq, Repr

/-- Player color enum (constants/GameConstants.ts, `PLAYER_COLOR`). -/
inductive PlayerColor where
  | white
  | black
deriving DecidableEq, Repr

/-- Game result enum (constants/GameConstants.ts, `GAME_RESULT`):
`1-0`, `0-1`, `1/2-1/2`. -/
inductive GameResult where
  | whiteWins
  | blackWins
  | draw
deriving DecidableEq, Repr

/-- Draw type enum (constants/GameConstants.ts, `DRAW_TYPE`). -/
inductive DrawType where
  | stalemate
  | insufficientMaterial
  | fiftyMove
  | threefoldRepetition
  | agreement
deriving DecidableEq, Repr

/-- Draw details (types/game.types.ts `DrawDetails`); only the two fields the
core ever writes are modelled. -/
structure DrawDetails where
  type : DrawType
  description : String
deriving DecidableEq, Repr

/-- Time control type enum (constants/GameConstants.ts, `TIME_CONTROL_TYPE`). -/
inductive TimeControlType where
  | unlimited
  | fixed
  | fischer
deriving DecidableEq, Repr

/-- Time control (types/game.types.ts `TimeControl`). -/
structure TimeControl where
  type : TimeControlType
  initialTime : Option Nat
  increment : Option Nat
deriving DecidableEq, Repr

/-- The canonical opening position (constants/GameConstants.ts, `INITIAL_FEN`). -/
def INITIAL_FEN : String :=
  "rnbqkbnr/pppppppp/8/8/8/8/PPPPPPPP/RNBQKBNR w KQkq - 0 1"

/-- JS `Map.set` on an insertion-ordered association list: replace the value
in place when the key exists, append otherwise. -/
def listSet (l : List (String × Nat)) (k : String) (v : Nat) :
    List (String × Nat) :=
  match l with
  | [] => [(k, v)]
  | (k', v') :: rest =>
    if k' = k then (k, v) :: rest else (k', v') :: listSet rest k v

/-- JS `Map.get` on an association list. -/
def listGet? (l : List (String × Nat)) (k : String) : Option Nat :=
  match l with
  | [] => none
  | (k', v') :: rest => if k' = k then some v' else listGet? rest k

/-- Helper for `split(' ')`: walk the character list, cutting at every
space (JS keeps empty segments, and splitting the empty string yields one
empty segment). -/
def splitOnSpaceAux : List Char → List Char → List String
  | [], acc => [acc.reverse.asString]
  | c :: cs, acc =>
    if c = ' ' then acc.reverse.asString :: splitOnSpaceAux cs []
    else splitOnSpaceAux cs (c :: acc)

/-- `fen.split(' ')` from the TypeScript sources. -/
def fenParts (fen : String) : List String := splitOnSpaceAux fen.toList []

/-- `Game.getPositionKey` (Game.ts 226-230): the first four space-separated
FEN fields, move counters stripped.  A missing field renders as the string
`undefined`, exactly as the JS template literal would. -/
def getPositionKey (fen : String) : String :=
  let parts := fenParts fen
  (parts.getD 0 "undefined") ++ " " ++ (parts.getD 1 "undefined") ++ " " ++
    (parts.getD 2 "undefined") ++ " " ++ (parts.getD 3 "undefined")

/-- `parseInt(s, 10)` restricted to a leading digit run; `none` models `NaN`
(no leading digits). -/
def parseIntNat (s : String) : Option Nat :=
  let ds := s.toList.takeWhile Char.isDigit
  if ds.isEmpty then none
  else some (ds.foldl (fun n c => n * 10 + (c.toNat - 48)) 0)

/-- `ChessEngine.getHalfmoveClock` (ChessEngine.ts 101-108) as a function of
the loaded FEN: field 4 parsed with `parseInt`, `0` when the field is absent,
`none` modelling a `NaN` parse. -/
def getHalfmoveClockFen (fen : String) : Option Nat :=
  match (fenParts fen).get? 4 with
  | none => some 0
  | some s => parseIntNat s

/-- Side to move read from FEN field 1, as in `Game.fromJSON`
(Game.ts 912-914: `data.fen.split(' ')[1] === 'w'`) and as chess.js
`turn()` encodes it in every FEN it produces. -/
def fenTurn (fen : String) : PlayerColor :=
  if (fenParts fen).getD 1 "" = "w" then PlayerColor.white else PlayerColor.black

/-- Result of a successful engine move: the SAN of the applied move and the
engine's post-move FEN and PGN snapshots. -/
structure EngineMove where
  san : String
  newFen : String
  newPgn : String
deriving DecidableEq, Repr

/-- Abstract interface of the external rules engine (chess.js behind
ChessEngine.ts), which the spec scopes out and specifies only at its
boundary: `moveSan fen m` is `makeMoveAndGetSan` on a position loaded from
`fen` (`none` = move rejected, position unchanged); `legalMoves` is
`moves()`; `isGameOver`/`isCheckmate` are the terminal-position probes, all
as pure functions of the loaded FEN. -/
structure ChessRules where
  moveSan : String → String → Option EngineMove
  legalMoves : String → List String
  isGameOver : String → Bool
  isCheckmate : String → Bool

/-- FEN after 1.e4, used by the concrete test instance below. -/
def FEN_AFTER_E4 : String :=
  "rnbqkbnr/pppppppp/8/8/4P3/8/PPPP1PPP/RNBQKBNR b KQkq e4 0 1"

/-- A tiny concrete rules engine for witnesses: from the opening position the
single text `"e4"` is legal, everything else is rejected, and no position is
terminal. -/
def toyRules : ChessRules where
  moveSan fen m :=
    if fen = INITIAL_FEN ∧ m = "e4" then
      some { san := "e4", newFen := FEN_AFTER_E4, newPgn := "1. e4" }
    else none
  legalMoves fen := if fen = INITIAL_FEN then ["e4"] else []
  isGameOver _ := false
  isCheckmate _ := false

/-- The `Game` entity state (Game.ts 39-114).  `engineFen` models the
position held by the wrapped `ChessEngine` instance (`_chessEngine`), which
every public operation reloads from `_fen` before use. -/
structure Game where
  id : String
  whitePlayerId : String
  blackPlayerId : String
  createdAt : Nat
  fen : String
  pgn : String
  status : GameStatus
  currentTurn : PlayerColor
  result : Option GameResult
  drawDetails : Option DrawDetails
  timeControl : Option TimeControl
  updatedAt : Nat
  lastMoveAt : Option Nat
  whiteTimeRemaining : Option Nat
  blackTimeRemaining : Option Nat
  drawOfferFrom : Option String
  pauseRequestedBy : Option String
  invalidMoveCounts : List (String × Nat)
  moveHistory : List String
  engineFen : String
  positionHistory : List (String × Nat)
deriving DecidableEq, Repr

namespace Game

/-- The `Game` constructor (Game.ts 83-114).  `id` stands for the generated
UUID and `now` for `new Date()`.  The fresh `ChessEngine` starts at the
opening position; the position history is seeded with the opening key at
count 1; time remaining is set only when `timeControl.initialTime` is
truthy (so an explicit `0` sets nothing, as in JS). -/
def new (id whitePlayerId blackPlayerId : String)
    (timeControl : Option TimeControl) (now : Nat) : Game where
  id := id
  whitePlayerId := whitePlayerId
  blackPlayerId := blackPlayerId
  createdAt := now
  fen := INITIAL_FEN
  pgn := ""
  status := GameStatus.active
  currentTurn := PlayerColor.white
  result := none
  drawDetails := none
  timeControl := timeControl
  updatedAt := now
  lastMoveAt := none
  whiteTimeRemaining :=
    match timeControl with
    | some tc => if tc.initialTime.getD 0 ≠ 0 then tc.initialTime else none
    | none => none
  blackTimeRemaining :=
    match timeControl with
    | some tc => if tc.initialTime.getD 0 ≠ 0 then tc.initialTime else none
    | none => none
  drawOfferFrom := none
  pauseRequestedBy := none
  invalidMoveCounts := []
  moveHistory := []
  engineFen := INITIAL_FEN
  positionHistory := [(getPositionKey INITIAL_FEN, 1)]

/-- `Game.completeGame` (Game.ts 212-219). -/
def completeGame (g : Game) (result : GameResult) (now : Nat) :
    Except String Game :=
  if g.status = GameStatus.completed then
    Except.error "Game is already completed"
  else
    Except.ok { g with
      status := GameStatus.completed
      result := some result
      updatedAt := now }

/-- `Game.getPositionRepetitionCount` (Game.ts 239-242). -/
def getPositionRepetitionCount (g : Game) : Nat :=
  (listGet? g.positionHistory (getPositionKey g.fen)).getD 0

/-- The record returned by `Game.getDrawStatus`.  `none` in the clock fields
models the `NaN` that `parseInt` yields on a malformed FEN field; JS `NaN`
comparisons are false and `NaN` arithmetic stays `NaN`. -/
structure DrawStatus where
  halfmoveClock : Option Nat
  movesUntilFiftyMove : Option Int
  repetitionCount : Nat
  isApproachingFiftyMove : Bool
  isApproachingRepetition : Bool
deriving DecidableEq, Repr

/-- `Game.getDrawStatus` (Game.ts 244-267).  Returns the status record
together with the post-call entity (the source reloads the engine from
`_fen` before reading the halfmove clock). -/
def getDrawStatus (g : Game) : Option DrawStatus × Game :=
  if g.status ≠ GameStatus.active then (none, g)
  else
    let g' := { g with engineFen := g.fen }
    let clock := getHalfmoveClockFen g'.engineFen
    let rep := g.getPositionRepetitionCount
    (some {
      halfmoveClock := clock
      movesUntilFiftyMove := clock.map (fun h => (50 : Int) - ((h / 2 : Nat) : Int))
      repetitionCount := rep
      isApproachingFiftyMove :=
        match clock with
        | none => false
        | some h => h ≥ 80
      isApproachingRepetition := rep ≥ 2 }, g')

/-- `Game.pauseGame` (Game.ts 282-304). -/
def pauseGame (g : Game) (requestedBy : String) (now : Nat) :
    Except String Game :=
  if g.status = GameStatus.completed then
    Except.error "Cannot pause completed game"
  else if g.status = GameStatus.paused then
    Except.error "Game is already paused"
  else if g.status ≠ GameStatus.active then
    Except.error "Can only pause active games"
  else if requestedBy ≠ g.whitePlayerId ∧ requestedBy ≠ g.blackPlayerId then
    Except.error "You are not a player in this game"
  else
    Except.ok { g with
      status := GameStatus.paused
      pauseRequestedBy := some requestedBy
      updatedAt := now }

/-- `Game.resumeGame` (Game.ts 319-329). -/
def resumeGame (g : Game) (now : Nat) : Except String Game :=
  if g.status = GameStatus.completed then
    Except.error "Cannot resume completed game"
  else if g.status ≠ GameStatus.paused then
    Except.error "Game is not paused"
  else
    Except.ok { g with
      status := GameStatus.active
      pauseRequestedBy := none
      updatedAt := now }

/-- `Game.resignGame` (Game.ts 344-358): checks, then delegates to
`completeGame` with "the other participant wins". -/
def resignGame (g : Game) (playerId : String) (now : Nat) :
    Except String Game :=
  if g.status ≠ GameStatus.active then
    Except.error "Can only resign active games"
  else if playerId ≠ g.whitePlayerId ∧ playerId ≠ g.blackPlayerId then
    Except.error "Player not in this game"
  else
    g.completeGame
      (if playerId = g.whitePlayerId then GameResult.blackWins
       else GameResult.whiteWins) now

/-- `Game.offerDraw` (Game.ts 373-383). -/
def offerDraw (g : Game) (playerId : String) (now : Nat) :
    Except String Game :=
  if g.status ≠ GameStatus.active then
    Except.error "Can only offer draw in active games"
  else if playerId ≠ g.whitePlayerId ∧ playerId ≠ g.blackPlayerId then
    Except.error "Player not in this game"
  else
    Except.ok { g with drawOfferFrom := some playerId, updatedAt := now }

/-- `Game.acceptDraw` (Game.ts 399-418).  Note that the draw offer is not
cleared: only `_drawDetails` is set before delegating to `completeGame`. -/
def acceptDraw (g : Game) (playerId : String) (now : Nat) :
    Except String Game :=
  if g.status ≠ GameStatus.active then
    Except.error "Can only accept draw in active games"
  else if g.drawOfferFrom = none then
    Except.error "No draw offer to accept"
  else if playerId ≠ g.whitePlayerId ∧ playerId ≠ g.blackPlayerId then
    Except.error "Player not in this game"
  else if some playerId = g.drawOfferFrom then
    Except.error "Cannot accept your own draw offer"
  else
    let details : DrawDetails :=
      { type := DrawType.agreement, description := "Draw by mutual agreement" }
    ({ g with drawDetails := some details }).completeGame GameResult.draw now

/-- `Game.declineDraw` (Game.ts 433-440): requires only an outstanding
offer; no status or participant check. -/
def declineDraw (g : Game) (now : Nat) : Except String Game :=
  if g.drawOfferFrom = none then
    Except.error "No draw offer to decline"
  else
    Except.ok { g with drawOfferFrom := none, updatedAt := now }

/-- Result shape of `validateMove`. -/
structure ValidationResult where
  valid : Bool
  reason : Option String
  suggestion : Option String
deriving DecidableEq, Repr

/-- `ChessEngine.validateMove` (ChessEngine.ts 187-228) on a position loaded
from `fen`: probe the move on a scratch copy; on failure build a suggestion
from the legal moves of the current position. -/
def engineValidateMove (R : ChessRules) (fen m : String) : ValidationResult :=
  match R.moveSan fen m with
  | some _ => { valid := true, reason := none, suggestion := none }
  | none =>
    let legal := R.legalMoves fen
    { valid := false
      reason := some ("Move \"" ++ m ++ "\" is not legal in current position")
      suggestion :=
        some (if legal.length > 0 then
          "Try one of: " ++ String.intercalate ", " (legal.take 5) ++
            (if legal.length > 5 then "..." else "")
        else "No legal moves available") }

/-- `Game.validateMove` (Game.ts 464-489).  Returns the verdict together
with the post-call entity; in the ACTIVE branch the source loads `_fen` into
the engine before delegating. -/
def validateMove (R : ChessRules) (g : Game) (m : String) :
    ValidationResult × Game :=
  if g.status = GameStatus.paused then
    ({ valid := false
       reason := some "Game is paused"
       suggestion := some "Resume the game to make moves" }, g)
  else if g.status ≠ GameStatus.active then
    ({ valid := false
       reason := some "Cannot validate moves in inactive games"
       suggestion := some "Game must be active to validate moves" }, g)
  else
    (engineValidateMove R g.fen m, { g with engineFen := g.fen })

/-- `Game.makeMove` (Game.ts 513-575), exception modelled as a retained
post-call state plus an optional error message, since a throw leaves the
caller holding the partially-updated object.  Steps: `validateMoveConditions`
(513, 523-530), `executeMoveOnEngine` (532-543, which loads `_fen` before
trying the move), `updateGameStateAfterMove` (545-556) and
`checkAndHandleGameEnd` / `determineGameResult` (558-575, which award a
checkmate win by the post-move `_currentTurn`). -/
def makeMove (R : ChessRules) (g : Game) (m : String) (now : Nat) :
    Game × Option String :=
  if g.status = GameStatus.paused then (g, some "Game is paused")
  else if g.status ≠ GameStatus.active then
    (g, some "Cannot make moves in inactive games")
  else
    match R.moveSan g.fen m with
    | none => ({ g with engineFen := g.fen }, some ("Invalid move: " ++ m))
    | some em =>
      let g1 := { g with
        engineFen := em.newFen
        fen := em.newFen
        pgn := em.newPgn
        currentTurn := fenTurn em.newFen
        moveHistory := g.moveHistory ++ [em.san]
        lastMoveAt := some now
        updatedAt := now }
      let key := getPositionKey em.newFen
      let g2 := { g1 with
        positionHistory :=
          listSet g1.positionHistory key ((listGet? g1.positionHistory key).getD 0 + 1) }
      if R.isGameOver em.newFen then
        let r :=
          if R.isCheckmate em.newFen then
            (if g2.currentTurn = PlayerColor.white then GameResult.whiteWins
             else GameResult.blackWins)
          else GameResult.draw
        match g2.completeGame r now with
        | Except.ok g3 => (g3, none)
        | Except.error e => (g2, some e)
      else (g2, none)

/-- `Game.makeMove` in `Except` form, as the session manager observes it: a
throw propagates and `saveGame` is not reached, so the partial state is
dropped with the error. -/
def makeMoveE (R : ChessRules) (g : Game) (m : String) (now : Nat) :
    Except String Game :=
  match makeMove R g m now with
  | (g', none) => Except.ok g'
  | (_, some e) => Except.error e

end Game

/-- The serialized record (types/game.types.ts `GameData`): exactly the
fields `Game.toJSON` emits.  `positionHistory` is optional in the interface
(`fromJSON` tolerates its absence). -/
structure GameData where
  id : String
  whitePlayerId : String
  blackPlayerId : String
  fen : String
  pgn : String
  status : GameStatus
  result : Option GameResult
  timeControl : Option TimeControl
  createdAt : Nat
  updatedAt : Nat
  lastMoveAt : Option Nat
  whiteTimeRemaining : Option Nat
  blackTimeRemaining : Option Nat
  drawOfferFrom : Option String
  pauseRequestedBy : Option String
  invalidMoveCounts : List (String × Nat)
  moveHistory : List String
  positionHistory : Option (List (String × Nat))
deriving DecidableEq, Repr

namespace Game

/-- `Game.toJSON` (Game.ts 849-876): a field-for-field dump; the position
history `Map` becomes a plain key-to-count object (entry order preserved).
Neither `_currentTurn` nor `_drawDetails` nor the engine state is emitted. -/
def toJSON (g : Game) : GameData where
  id := g.id
  whitePlayerId := g.whitePlayerId
  blackPlayerId := g.blackPlayerId
  fen := g.fen
  pgn := g.pgn
  status := g.status
  result := g.result
  timeControl := g.timeControl
  createdAt := g.createdAt
  updatedAt := g.updatedAt
  lastMoveAt := g.lastMoveAt
  whiteTimeRemaining := g.whiteTimeRemaining
  blackTimeRemaining := g.blackTimeRemaining
  drawOfferFrom := g.drawOfferFrom
  pauseRequestedBy := g.pauseRequestedBy
  invalidMoveCounts := g.invalidMoveCounts
  moveHistory := g.moveHistory
  positionHistory := some g.positionHistory

/-- The engine position reached by replaying a move list on a fresh
`ChessEngine` as `Game.fromJSON` does (Game.ts 930-934): each move is played
with `ChessEngine.makeMove`, whose boolean result is ignored, so a rejected
move leaves the engine where it was and the replay continues. -/
def replayFen (R : ChessRules) (fen : String) : List String → String
  | [] => fen
  | m :: ms =>
    match R.moveSan fen m with
    | some em => replayFen R em.newFen ms
    | none => replayFen R fen ms

/-- `Game.fromJSON` (Game.ts 893-937): restores every dumped field verbatim,
recomputes `_currentTurn` from FEN field 1 of the restored position, leaves
`_drawDetails` unset, rebuilds the position-history map from the plain
object (empty when absent), and restores the engine by replaying
`moveHistory` from the opening position.  It never fails. -/
def fromJSON (R : ChessRules) (d : GameData) : Game where
  id := d.id
  whitePlayerId := d.whitePlayerId
  blackPlayerId := d.blackPlayerId
  createdAt := d.createdAt
  fen := d.fen
  pgn := d.pgn
  status := d.status
  currentTurn := fenTurn d.fen
  result := d.result
  drawDetails := none
  timeControl := d.timeControl
  updatedAt := d.updatedAt
  lastMoveAt := d.lastMoveAt
  whiteTimeRemaining := d.whiteTimeRemaining
  blackTimeRemaining := d.blackTimeRemaining
  drawOfferFrom := d.drawOfferFrom
  pauseRequestedBy := d.pauseRequestedBy
  invalidMoveCounts := d.invalidMoveCounts
  moveHistory := d.moveHistory
  engineFen := replayFen R INITIAL_FEN d.moveHistory
  positionHistory := d.positionHistory.getD []

end Game

/-! ## Storage (InMemoryAdapter.ts) and session manager (GameManager.ts) -/

/-- The in-memory store: a JS `Map` from game id to stored `Game`, modelled
as an insertion-ordered list of games keyed by their `id` field. -/
abbrev Storage := List Game

/-- `Map.set` keyed by `Game.id`: replace in place or append. -/
def storeSet (st : Storage) (g : Game) : Storage :=
  match st with
  | [] => [g]
  | h :: t => if h.id = g.id then g :: t else h :: storeSet t g

/-- The defensive copy the adapter makes on every boundary crossing
(`Game.fromJSON(game.toJSON())`). -/
def gameCopy (R : ChessRules) (g : Game) : Game := Game.fromJSON R g.toJSON

/-- `InMemoryAdapter.saveGame` (InMemoryAdapter.ts 12-18): store a copy under
the game's id. -/
def saveGame (R : ChessRules) (st : Storage) (g : Game) : Storage :=
  storeSet st (gameCopy R g)

/-- `InMemoryAdapter.loadGame` (InMemoryAdapter.ts 20-31): `null` when the
id is absent, an independent copy otherwise. -/
def loadGame (R : ChessRules) (st : Storage) (id : String) : Option Game :=
  (st.find? (fun g => g.id == id)).map (gameCopy R)

/-- `InMemoryAdapter.loadAllGames` (InMemoryAdapter.ts 39-46). -/
def loadAllGames (R : ChessRules) (st : Storage) : List Game :=
  st.map (gameCopy R)

/-- `InMemoryAdapter.loadGamesByStatus` (InMemoryAdapter.ts 48-51). -/
def loadGamesByStatus (R : ChessRules) (st : Storage) (s : GameStatus) :
    List Game :=
  (loadAllGames R st).filter (fun g => g.status == s)

/-- `InMemoryAdapter.countActiveGames` (InMemoryAdapter.ts 60-63). -/
def countActiveGames (R : ChessRules) (st : Storage) : Nat :=
  (loadGamesByStatus R st GameStatus.active).length

namespace GameManager

/-- `MAX_CONCURRENT_GAMES` (GameManager.ts 6). -/
def MAX_CONCURRENT_GAMES : Nat := 5

/-- `GameManager.createGame` (GameManager.ts 80-98): count ACTIVE games,
fail when the ceiling is reached (leaving the store untouched), otherwise
construct a new game and persist it.  The pair keeps the post-call store in
both branches. -/
def createGame (R : ChessRules) (st : Storage)
    (newId whitePlayerId blackPlayerId : String)
    (timeControl : Option TimeControl) (now : Nat) :
    Except String Game × Storage :=
  if countActiveGames R st ≥ MAX_CONCURRENT_GAMES then
    (Except.error ("Maximum number of concurrent games (" ++
      toString MAX_CONCURRENT_GAMES ++ ") reached"), st)
  else
    let g := Game.new newId whitePlayerId blackPlayerId timeControl now
    (Except.ok g, saveGame R st g)

/-- `GameManager.completeGame` (GameManager.ts 138-147). -/
def completeGame (R : ChessRules) (st : Storage) (gameId : String)
    (result : GameResult) (now : Nat) : Except String Storage :=
  match loadGame R st gameId with
  | none => Except.error "Game not found"
  | some g =>
    match g.completeGame result now with
    | Except.error e => Except.error e
    | Except.ok g' => Except.ok (saveGame R st g')

/-- `GameManager.pauseGame` (GameManager.ts 207-215). -/
def pauseGame (R : ChessRules) (st : Storage) (gameId requestedBy : String)
    (now : Nat) : Except String Storage :=
  match loadGame R st gameId with
  | none => Except.error "Game not found"
  | some g =>
    match g.pauseGame requestedBy now with
    | Except.error e => Except.error e
    | Except.ok g' => Except.ok (saveGame R st g')

/-- `GameManager.resumeGame` (GameManager.ts 217-225). -/
def resumeGame (R : ChessRules) (st : Storage) (gameId : String)
    (now : Nat) : Except String Storage :=
  match loadGame R st gameId with
  | none => Except.error "Game not found"
  | some g =>
    match g.resumeGame now with
    | Except.error e => Except.error e
    | Except.ok g' => Except.ok (saveGame R st g')

/-- `GameManager.makeMove` (GameManager.ts 243-251): a throw inside
`game.makeMove` propagates before `saveGame` is reached. -/
def makeMove (R : ChessRules) (st : Storage) (gameId move : String)
    (now : Nat) : Except String Storage :=
  match loadGame R st gameId with
  | none => Except.error "Game not found"
  | some g =>
    match Game.makeMoveE R g move now with
    | Except.error e => Except.error e
    | Except.ok g' => Except.ok (saveGame R st g')

/-- `GameManager.resignGame` (GameManager.ts 318-326). -/
def resignGame (R : ChessRules) (st : Storage) (gameId playerId : String)
    (now : Nat) : Except String Storage :=
  match loadGame R st gameId with
  | none => Except.error "Game not found"
  | some g =>
    match g.resignGame playerId now with
    | Except.error e => Except.error e
    | Except.ok g' => Except.ok (saveGame R st g')

/-- `GameManager.offerDraw` (GameManager.ts 328-336). -/
def offerDraw (R : ChessRules) (st : Storage) (gameId playerId : String)
    (now : Nat) : Except String Storage :=
  match loadGame R st gameId with
  | none => Except.error "Game not found"
  | some g =>
    match g.offerDraw playerId now with
    | Except.error e => Except.error e
    | Except.ok g' => Except.ok (saveGame R st g')

/-- `GameManager.acceptDraw` (GameManager.ts 338-346). -/
def acceptDraw (R : ChessRules) (st : Storage) (gameId playerId : String)
    (now : Nat) : Except String Storage :=
  match loadGame R st gameId with
  | none => Except.error "Game not found"
  | some g =>
    match g.acceptDraw playerId now with
    | Except.error e => Except.error e
    | Except.ok g' => Except.ok (saveGame R st g')

/-- `GameManager.declineDraw` (GameManager.ts 348-360): unlike every other
wrapper, it checks participant membership itself before delegating to the
entity's `declineDraw`. -/
def declineDraw (R : ChessRules) (st : Storage) (gameId playerId : String)
    (now : Nat) : Except String Storage :=
  match loadGame R st gameId with
  | none => Except.error "Game not found"
  | some g =>
    if playerId ≠ g.whitePlayerId ∧ playerId ≠ g.blackPlayerId then
      Except.error "Player not in this game"
    else
      match g.declineDraw now with
      | Except.error e => Except.error e
      | Except.ok g' => Except.ok (saveGame R st g')

end GameManager

/-- The load / delegate / persist sandwich the spec requires every
mutate-and-persist wrapper to be: load the match, `NotFoundError` when
absent, run the entity operation, propagate its error unchanged, persist the
result.  Written from the spec's words for the refinement comparison in the
wrapper claims. -/
def withGame (R : ChessRules) (st : Storage) (gameId : String)
    (f : Game → Except String Game) : Except String Storage :=
  match loadGame R st gameId with
  | none => Except.error "Game not found"
  | some g => (f g).map (saveGame R st)

/-! ## Entity operation alphabet (for reachability claims) -/

/-- One entity operation from the fixed alphabet the invariant claims
quantify over. -/
inductive Op where
  | moveOp (m : String)
  | pause (p : String)
  | resume
  | offer (p : String)
  | accept (p : String)
  | decline
  | resign (p : String)
  | complete (r : GameResult)
deriving DecidableEq, Repr

/-- Apply one entity operation at time `now`. -/
def applyOp (R : ChessRules) (g : Game) (now : Nat) : Op → Except String Game
  | Op.moveOp m => Game.makeMoveE R g m now
  | Op.pause p => g.pauseGame p now
  | Op.resume => g.resumeGame now
  | Op.offer p => g.offerDraw p now
  | Op.accept p => g.acceptDraw p now
  | Op.decline => g.declineDraw now
  | Op.resign p => g.resignGame p now
  | Op.complete r => g.completeGame r now

/-- Run a timed sequence of entity operations; a failed operation raises and
leaves the entity state unchanged (a rejected `makeMove` only rewrites the
engine scratch position, which every later operation reloads before use). -/
def runOps (R : ChessRules) (g : Game) : List (Op × Nat) → Game
  | [] => g
  | (op, now) :: rest =>
    match applyOp R g now op with
    | Except.ok g' => runOps R g' rest
    | Except.error _ => runOps R g rest

/-! ## Concrete fixtures for witnesses and counterexamples -/

/-- A freshly created match, as `createGame` constructs it. -/
def demoGame : Game := Game.new "g1" "alice" "bob" none 0

/-- `demoGame` after a successful `pauseGame("alice")`. -/
def demoPaused : Game := runOps toyRules demoGame [(Op.pause "alice", 1)]

/-- `demoGame` after a successful `offerDraw("alice")`. -/
def demoOffered : Game := runOps toyRules demoGame [(Op.offer "alice", 1)]

/-- A store holding five ACTIVE matches — at the admission ceiling. -/
def fullStore : Storage :=
  [Game.new "a" "p" "q" none 0, Game.new "b" "p" "q" none 0,
   Game.new "c" "p" "q" none 0, Game.new "d" "p" "q" none 0,
   Game.new "e" "p" "q" none 0]

/-- A match in PAUSED status, as `pauseGame` leaves it. -/
def demoPausedB : Game :=
  { Game.new "b" "p" "q" none 0 with
    status := GameStatus.paused, pauseRequestedBy := some "p" }

/-- A store holding five matches of which one is PAUSED. -/
def pausedStore : Storage :=
  [Game.new "a" "p" "q" none 0, demoPausedB,
   Game.new "c" "p" "q" none 0, Game.new "d" "p" "q" none 0,
   Game.new "e" "p" "q" none 0]

/-! ## Helper lemmas -/

/-- A successful `completeGame` changes exactly status, result and the
update stamp. -/
lemma completeGame_ok_fields (g : Game) (r : GameResult) (now : Nat)
    (g' : Game) (h : g.completeGame r now = Except.ok g') :
    g' = { g with
      status := GameStatus.completed, result := some r, updatedAt := now } := by
  unfold Game.completeGame at h
  split at h
  · cases h
  · injection h with h2
    exact h2.symm

/-- `makeMove` never touches the draw offer, on success or on failure. -/
lemma makeMove_fst_drawOfferFrom (R : ChessRules) (g : Game) (m : String)
    (now : Nat) :
    ((Game.makeMove R g m now).1).drawOfferFrom = g.drawOfferFrom := by
  unfold Game.makeMove
  split
  · rfl
  split
  · rfl
  split
  · rfl
  · dsimp only
    split
    · split
      · next g3 heq =>
        rw [completeGame_ok_fields _ _ _ _ heq]
      · rfl
    · rfl

/-! ## Claims -/

/-- C4: for every ACTIVE match and every move text the rules engine rejects,
`makeMove` fails with `Invalid move: <text>` and leaves every match field —
position, move log, position history, turn, status, all timestamps, and the
rest — equal to its pre-call value; in particular no entry is appended to the
move log. -/
theorem C4_makeMove_rejection_frame (R : ChessRules) (g : Game) (m : String)
    (now : Nat) (ha : g.status = GameStatus.active)
    (hr : R.moveSan g.fen m = none) :
    (Game.makeMove R g m now).2 = some ("Invalid move: " ++ m) ∧
    ((Game.makeMove R g m now).1.fen = g.fen ∧
     (Game.makeMove R g m now).1.moveHistory = g.moveHistory ∧
     (Game.makeMove R g m now).1.positionHistory = g.positionHistory ∧
     (Game.makeMove R g m now).1.currentTurn = g.currentTurn ∧
     (Game.makeMove R g m now).1.status = g.status ∧
     (Game.makeMove R g m now).1.createdAt = g.createdAt ∧
     (Game.makeMove R g m now).1.updatedAt = g.updatedAt ∧
     (Game.makeMove R g m now).1.lastMoveAt = g.lastMoveAt ∧
     (Game.makeMove R g m now).1.pgn = g.pgn ∧
     (Game.makeMove R g m now).1.result = g.result ∧
     (Game.makeMove R g m now).1.drawDetails = g.drawDetails ∧
     (Game.makeMove R g m now).1.drawOfferFrom = g.drawOfferFrom ∧
     (Game.makeMove R g m now).1.pauseRequestedBy = g.pauseRequestedBy ∧
     (Game.makeMove R g m now).1.timeControl = g.timeControl ∧
     (Game.makeMove R g m now).1.whiteTimeRemaining = g.whiteTimeRemaining ∧
     (Game.makeMove R g m now).1.blackTimeRemaining = g.blackTimeRemaining ∧
     (Game.makeMove R g m now).1.invalidMoveCounts = g.invalidMoveCounts ∧
     (Game.makeMove R g m now).1.id = g.id ∧
     (Game.makeMove R g m now).1.whitePlayerId = g.whitePlayerId ∧
     (Game.makeMove R g m now).1.blackPlayerId = g.blackPlayerId) := by
  have hmm : Game.makeMove R g m now
      = ({ g with engineFen := g.fen }, some ("Invalid move: " ++ m)) := by
    simp [Game.makeMove, ha, hr]
  rw [hmm]
  exact ⟨rfl, rfl, rfl, rfl, rfl, rfl, rfl, rfl, rfl, rfl, rfl, rfl, rfl,
    rfl, rfl, rfl, rfl, rfl, rfl, rfl, rfl⟩

/-- C4 witness: the toy engine rejects `"zz"` on a fresh match. -/
theorem C4_witness :
    (Game.makeMove toyRules demoGame "zz" 3).2 = some ("Invalid move: " ++ "zz") ∧
    (Game.makeMove toyRules demoGame "zz" 3).1.moveHistory = demoGame.moveHistory :=
  ⟨(C4_makeMove_rejection_frame toyRules demoGame "zz" 3 rfl rfl).1,
   (C4_makeMove_rejection_frame toyRules demoGame "zz" 3 rfl rfl).2.2.1⟩

/-- C6: serialize, deserialize, serialize yields the first serialization
field for field, including the position-history key-to-count mapping. -/
theorem C6_serialize_roundtrip (R : ChessRules) (g : Game) :
    Game.toJSON (Game.fromJSON R (Game.toJSON g)) = Game.toJSON g := rfl

/-- C7: at or above the admission ceiling `createGame` fails with the
capacity error and leaves the store untouched; below it, it constructs a
fresh ACTIVE match and persists it. -/
theorem C7_admission_control (R : ChessRules) (st : Storage)
    (newId w b : String) (tc : Option TimeControl) (now : Nat) :
    (countActiveGames R st ≥ GameManager.MAX_CONCURRENT_GAMES →
      GameManager.createGame R st newId w b tc now
        = (Except.error "Maximum number of concurrent games (5) reached", st)) ∧
    (countActiveGames R st < GameManager.MAX_CONCURRENT_GAMES →
      GameManager.createGame R st newId w b tc now
        = (Except.ok (Game.new newId w b tc now),
           saveGame R st (Game.new newId w b tc now)) ∧
      (Game.new newId w b tc now).status = GameStatus.active) := by
  constructor
  · intro h
    simp [GameManager.createGame, if_pos h]
    rfl
  · intro h
    refine ⟨?_, rfl⟩
    simp [GameManager.createGame, if_neg (by omega : ¬ countActiveGames R st ≥ GameManager.MAX_CONCURRENT_GAMES)]

/-- C7 witness: creation fails on a store of five ACTIVE matches and
succeeds on the empty store. -/
theorem C7_witness :
    GameManager.createGame toyRules fullStore "f" "p" "q" none 9
      = (Except.error "Maximum number of concurrent games (5) reached", fullStore) ∧
    GameManager.createGame toyRules [] "f" "p" "q" none 9
      = (Except.ok (Game.new "f" "p" "q" none 9),
         saveGame toyRules [] (Game.new "f" "p" "q" none 9)) :=
  ⟨(C7_admission_control toyRules fullStore "f" "p" "q" none 9).1 (by decide),
   ((C7_admission_control toyRules [] "f" "p" "q" none 9).2 (by decide)).1⟩

/-- C1 counterexample: a freshly created match, paused by one reachable
operation, is transitioned directly from PAUSED to COMPLETED by a single
`completeGame` call — no `resumeGame` is required, contradicting the claim
that completion is unreachable from PAUSED. -/
theorem C1_counterexample :
    demoPaused.status = GameStatus.paused ∧
    (demoPaused.completeGame GameResult.whiteWins 2).map Game.status
      = Except.ok GameStatus.completed := ⟨rfl, rfl⟩

/-- C1 (amended): from PAUSED, `makeMove`, `resignGame`, `acceptDraw`,
`offerDraw` and `pauseGame` all fail, so a move-, resignation- or
draw-triggered completion is unreachable; but `completeGame` succeeds from
PAUSED (it rejects only already-COMPLETED matches) and is the only single
entity operation taking a PAUSED match to COMPLETED, so PAUSED→COMPLETED is
reachable without a resume, via explicit completion only. -/
theorem C1_amended_paused_completion (R : ChessRules) (g : Game) (now : Nat)
    (hp : g.status = GameStatus.paused) :
    (∀ op g', applyOp R g now op = Except.ok g' →
      g'.status = GameStatus.completed → ∃ r, op = Op.complete r) ∧
    (∀ r, (g.completeGame r now).map Game.status
      = Except.ok GameStatus.completed) := by
  constructor
  · intro op g' h hc
    cases op with
    | moveOp m =>
      simp [applyOp, Game.makeMoveE, Game.makeMove, hp] at h
    | pause p =>
      simp [applyOp, Game.pauseGame, hp] at h
    | resume =>
      simp only [applyOp, Game.resumeGame] at h
      split at h
      · cases h
      split at h
      · cases h
      injection h with h2
      rw [← h2] at hc
      cases hc
    | offer p =>
      simp [applyOp, Game.offerDraw, hp] at h
    | accept p =>
      simp [applyOp, Game.acceptDraw, hp] at h
    | decline =>
      simp only [applyOp, Game.declineDraw] at h
      split at h
      · cases h
      injection h with h2
      rw [← h2] at hc
      simp only at hc
      rw [hp] at hc
      cases hc
    | resign p =>
      simp [applyOp, Game.resignGame, hp] at h
    | complete r => exact ⟨r, rfl⟩
  · intro r
    simp [Game.completeGame, hp]
    rfl

/-- C1 witness: the amended theorem applied to the concretely reached paused
match. -/
theorem C1_witness :
    (demoPaused.completeGame GameResult.blackWins 3).map Game.status
      = Except.ok GameStatus.completed :=
  (C1_amended_paused_completion toyRules demoPaused 3 rfl).2 GameResult.blackWins

/-- A serialized record whose move history holds a move the rules engine
rejects on replay. -/
def badData : GameData := { Game.toJSON demoGame with moveHistory := ["zz"] }

/-- C2 counterexample: the record's single replayed move `"zz"` is rejected
by the rules engine from the opening position, yet `fromJSON` does not fail
with any CorruptState error — it returns a game (id and status intact), the
rejected move silently skipped and the engine left at the opening
position. -/
theorem C2_counterexample :
    toyRules.moveSan INITIAL_FEN "zz" = none ∧
    (Game.fromJSON toyRules badData).id = "g1" ∧
    (Game.fromJSON toyRules badData).status = GameStatus.active ∧
    (Game.fromJSON toyRules badData).engineFen = INITIAL_FEN := by
  exact ⟨by decide, rfl, rfl, rfl⟩

/-- C2 (amended): `fromJSON` never fails — a replayed move the rules engine
rejects is silently skipped and restoration continues — and for every
accepted record (i.e. every record) the restored turn equals the side to
move encoded in the restored position field. -/
theorem C2_amended_fromJSON_total (R : ChessRules) (d : GameData) :
    (Game.fromJSON R d).currentTurn = fenTurn d.fen ∧
    (Game.fromJSON R d).fen = d.fen ∧
    (∀ fen m ms, R.moveSan fen m = none →
      Game.replayFen R fen (m :: ms) = Game.replayFen R fen ms) := by
  refine ⟨rfl, rfl, ?_⟩
  intro fen m ms h
  simp [Game.replayFen, h]

/-- C2 witness: the amended theorem at the concrete corrupt record. -/
theorem C2_witness :
    (Game.fromJSON toyRules badData).currentTurn = fenTurn badData.fen ∧
    Game.replayFen toyRules INITIAL_FEN ["zz"]
      = Game.replayFen toyRules INITIAL_FEN [] :=
  ⟨(C2_amended_fromJSON_total toyRules badData).1,
   (C2_amended_fromJSON_total toyRules badData).2.2 INITIAL_FEN "zz" []
     (by decide)⟩

/-- C3 counterexample: offer a draw, then pause — both operations succeed
from a freshly created match, and the reached state has `drawOfferFrom` set
while its status is PAUSED, not ACTIVE. -/
theorem C3_counterexample :
    (runOps toyRules demoGame [(Op.offer "alice", 1), (Op.pause "alice", 2)]).drawOfferFrom
      = some "alice" ∧
    (runOps toyRules demoGame [(Op.offer "alice", 1), (Op.pause "alice", 2)]).status
      = GameStatus.paused := ⟨rfl, rfl⟩

/-- C3 (amended): `offerDraw` is the only entity operation that sets
`drawOfferFrom`, and it requires ACTIVE status; but `pauseGame` and
`completeGame` do not clear the offer, so in reachable states
`drawOfferFrom` may remain set while the status is PAUSED or COMPLETED —
the claimed state invariant holds only at the moment the offer is made. -/
theorem C3_amended_offer_only_active (R : ChessRules) (g : Game) (now : Nat)
    (op : Op) (g' : Game) (h : applyOp R g now op = Except.ok g') :
    (∀ p, op = Op.offer p →
      g.status = GameStatus.active ∧ g'.drawOfferFrom = some p) ∧
    ((∀ p, op ≠ Op.offer p) →
      g'.drawOfferFrom = g.drawOfferFrom ∨ g'.drawOfferFrom = none) := by
  cases op with
  | moveOp m =>
    refine ⟨fun p heq => (nomatch heq), fun _ => Or.inl ?_⟩
    simp only [applyOp, Game.makeMoveE] at h
    split at h
    · next g'' heq =>
      injection h with h2
      have hpres := makeMove_fst_drawOfferFrom R g m now
      rw [heq] at hpres
      rw [← h2]
      exact hpres
    · cases h
  | pause p =>
    refine ⟨fun p heq => (nomatch heq), fun _ => Or.inl ?_⟩
    simp only [applyOp, Game.pauseGame] at h
    split at h
    · cases h
    split at h
    · cases h
    split at h
    · cases h
    split at h
    · cases h
    injection h with h2
    rw [← h2]
  | resume =>
    refine ⟨fun p heq => (nomatch heq), fun _ => Or.inl ?_⟩
    simp only [applyOp, Game.resumeGame] at h
    split at h
    · cases h
    split at h
    · cases h
    injection h with h2
    rw [← h2]
  | offer p =>
    simp only [applyOp, Game.offerDraw] at h
    split at h
    · cases h
    · rename_i hact
      split at h
      · cases h
      · injection h with h2
        refine ⟨fun p' heq => ?_, fun hne => absurd rfl (hne p)⟩
        cases heq
        rw [← h2]
        exact ⟨not_not.mp hact, rfl⟩
  | accept p =>
    refine ⟨fun p heq => (nomatch heq), fun _ => Or.inl ?_⟩
    simp only [applyOp, Game.acceptDraw] at h
    split at h
    · cases h
    split at h
    · cases h
    split at h
    · cases h
    split at h
    · cases h
    rw [completeGame_ok_fields _ _ _ _ h]
  | decline =>
    refine ⟨fun p heq => (nomatch heq), fun _ => Or.inr ?_⟩
    simp only [applyOp, Game.declineDraw] at h
    split at h
    · cases h
    injection h with h2
    rw [← h2]
  | resign p =>
    refine ⟨fun p heq => (nomatch heq), fun _ => Or.inl ?_⟩
    simp only [applyOp, Game.resignGame] at h
    split at h
    · cases h
    split at h
    · cases h
    rw [completeGame_ok_fields _ _ _ _ h]
  | complete r =>
    refine ⟨fun p heq => (nomatch heq), fun _ => Or.inl ?_⟩
    simp only [applyOp] at h
    rw [completeGame_ok_fields _ _ _ _ h]

/-- C3 witness: the amended theorem at the concrete draw offer on a fresh
match. -/
theorem C3_witness :
    demoGame.status = GameStatus.active ∧
    demoOffered.drawOfferFrom = some "alice" :=
  (C3_amended_offer_only_active toyRules demoGame 1 (Op.offer "alice")
    demoOffered rfl).1 "alice" rfl

/-- The store holding the match with the outstanding draw offer. -/
def demoOfferStore : Storage := saveGame toyRules [] demoOffered

/-- C5 counterexample: on a stored match with an outstanding draw offer, the
session manager's `declineDraw` wrapper fails with `Player not in this game`
for a caller outside the match, although the entity operation `declineDraw`
itself succeeds on the loaded match (it takes no participant at all) — and
the pure load/delegate/persist sandwich would likewise succeed.  The wrapper
therefore adds business logic of its own. -/
theorem C5_counterexample :
    GameManager.declineDraw toyRules demoOfferStore "g1" "stranger" 5
      = Except.error "Player not in this game" ∧
    ((loadGame toyRules demoOfferStore "g1").map
      (fun g => (g.declineDraw 5).toOption.isSome)) = some true ∧
    (withGame toyRules demoOfferStore "g1"
      (fun g => g.declineDraw 5)).toOption.isSome = true := ⟨rfl, rfl, rfl⟩

/-- C5 (amended): seven of the eight mutate-and-persist wrappers —
`makeMove`, `resignGame`, `offerDraw`, `acceptDraw`, `pauseGame`,
`resumeGame`, `completeGame` — are exactly the load / delegate / persist
sandwich (NotFoundError on absence, entity errors propagated unchanged, no
extra logic); `declineDraw` alone additionally rejects callers that are not
participants of the match before delegating. -/
lemma ok_save_match_eq_map (k : Game → Storage) (e : Except String Game) :
    (match e with
     | Except.error msg => Except.error msg
     | Except.ok g' => Except.ok (k g')) = Except.map k e := by
  cases e <;> rfl

theorem C5_amended_wrappers_pass_through (R : ChessRules) (st : Storage)
    (gameId playerId move : String) (result : GameResult) (now : Nat) :
    GameManager.makeMove R st gameId move now
      = withGame R st gameId (fun g => Game.makeMoveE R g move now) ∧
    GameManager.resignGame R st gameId playerId now
      = withGame R st gameId (fun g => g.resignGame playerId now) ∧
    GameManager.offerDraw R st gameId playerId now
      = withGame R st gameId (fun g => g.offerDraw playerId now) ∧
    GameManager.acceptDraw R st gameId playerId now
      = withGame R st gameId (fun g => g.acceptDraw playerId now) ∧
    GameManager.pauseGame R st gameId playerId now
      = withGame R st gameId (fun g => g.pauseGame playerId now) ∧
    GameManager.resumeGame R st gameId now
      = withGame R st gameId (fun g => g.resumeGame now) ∧
    GameManager.completeGame R st gameId result now
      = withGame R st gameId (fun g => g.completeGame result now) ∧
    GameManager.declineDraw R st gameId playerId now
      = withGame R st gameId (fun g =>
          if playerId ≠ g.whitePlayerId ∧ playerId ≠ g.blackPlayerId then
            Except.error "Player not in this game"
          else g.declineDraw now) := by
  refine ⟨?_, ?_, ?_, ?_, ?_, ?_, ?_, ?_⟩
  · unfold GameManager.makeMove withGame
    cases loadGame R st gameId with
    | none => rfl
    | some g => exact ok_save_match_eq_map (saveGame R st) (Game.makeMoveE R g move now)
  · unfold GameManager.resignGame withGame
    cases loadGame R st gameId with
    | none => rfl
    | some g => exact ok_save_match_eq_map (saveGame R st) (g.resignGame playerId now)
  · unfold GameManager.offerDraw withGame
    cases loadGame R st gameId with
    | none => rfl
    | some g => exact ok_save_match_eq_map (saveGame R st) (g.offerDraw playerId now)
  · unfold GameManager.acceptDraw withGame
    cases loadGame R st gameId with
    | none => rfl
    | some g => exact ok_save_match_eq_map (saveGame R st) (g.acceptDraw playerId now)
  · unfold GameManager.pauseGame withGame
    cases loadGame R st gameId with
    | none => rfl
    | some g => exact ok_save_match_eq_map (saveGame R st) (g.pauseGame playerId now)
  · unfold GameManager.resumeGame withGame
    cases loadGame R st gameId with
    | none => rfl
    | some g => exact ok_save_match_eq_map (saveGame R st) (g.resumeGame now)
  · unfold GameManager.completeGame withGame
    cases loadGame R st gameId with
    | none => rfl
    | some g => exact ok_save_match_eq_map (saveGame R st) (g.completeGame result now)
  · unfold GameManager.declineDraw withGame
    cases loadGame R st gameId with
    | none => rfl
    | some g =>
      show _ = Except.map (saveGame R st)
        (if playerId ≠ g.whitePlayerId ∧ playerId ≠ g.blackPlayerId then
          Except.error "Player not in this game"
        else g.declineDraw now)
      by_cases hp : playerId ≠ g.whitePlayerId ∧ playerId ≠ g.blackPlayerId
      · simp only [if_pos hp]
        rfl
      · simp only [if_neg hp]
        exact ok_save_match_eq_map (saveGame R st) (g.declineDraw now)

/-- C8: `getDrawStatus` returns null exactly when the status is not ACTIVE;
when ACTIVE, the returned record has the halfmove clock read from the
position encoding (FEN field 4), `movesUntilFiftyMove = 50 - floor(clock/2)`,
the repetition count equal to the position-history occurrence count of the
current position's fingerprint, the fifty-move warning exactly when the
clock is at least 80, and the repetition warning exactly when the count is
at least 2. -/
theorem C8_getDrawStatus_spec (g : Game) :
    ((Game.getDrawStatus g).1 = none ↔ g.status ≠ GameStatus.active) ∧
    (∀ ds, (Game.getDrawStatus g).1 = some ds →
      ds.halfmoveClock = getHalfmoveClockFen g.fen ∧
      ds.movesUntilFiftyMove
        = (getHalfmoveClockFen g.fen).map
            (fun h => (50 : Int) - ((h / 2 : Nat) : Int)) ∧
      ds.repetitionCount
        = (listGet? g.positionHistory (getPositionKey g.fen)).getD 0 ∧
      (ds.isApproachingFiftyMove = true ↔
        ∃ h, getHalfmoveClockFen g.fen = some h ∧ 80 ≤ h) ∧
      (ds.isApproachingRepetition = true ↔ 2 ≤ ds.repetitionCount)) := by
  by_cases hs : g.status = GameStatus.active
  · constructor
    · simp [Game.getDrawStatus, hs]
    · intro ds hds
      simp only [Game.getDrawStatus, hs, ne_eq, not_true_eq_false, if_false,
        Option.some.injEq, ite_false] at hds
      have hds' : ds = {
          halfmoveClock := getHalfmoveClockFen g.fen
          movesUntilFiftyMove := (getHalfmoveClockFen g.fen).map
            (fun h => (50 : Int) - ((h / 2 : Nat) : Int))
          repetitionCount := g.getPositionRepetitionCount
          isApproachingFiftyMove :=
            match getHalfmoveClockFen g.fen with
            | none => false
            | some h => h ≥ 80
          isApproachingRepetition := g.getPositionRepetitionCount ≥ 2 } := by
        rw [← hds]
      subst hds'
      refine ⟨rfl, rfl, rfl, ?_, ?_⟩
      · cases hc : getHalfmoveClockFen g.fen with
        | none => simp [hc]
        | some h =>
          simp only [hc, Option.some.injEq, ge_iff_le, decide_eq_true_eq]
          constructor
          · intro hle
            exact ⟨h, rfl, hle⟩
          · rintro ⟨h', hh', hle⟩
            cases hh'
            exact hle
      · simp [Game.getPositionRepetitionCount, ge_iff_le]
  · constructor
    · simp [Game.getDrawStatus, hs]
    · intro ds hds
      simp [Game.getDrawStatus, hs] at hds

/-- C8 witness: a fresh ACTIVE match, whose draw status has clock 0,
50 moves left, repetition count 1 and no warnings. -/
theorem C8_witness :
    ({ halfmoveClock := some 0, movesUntilFiftyMove := some 50,
       repetitionCount := 1, isApproachingFiftyMove := false,
       isApproachingRepetition := false } : Game.DrawStatus).halfmoveClock
      = getHalfmoveClockFen demoGame.fen ∧
    ({ halfmoveClock := some 0, movesUntilFiftyMove := some 50,
       repetitionCount := 1, isApproachingFiftyMove := false,
       isApproachingRepetition := false } : Game.DrawStatus).repetitionCount
      = (listGet? demoGame.positionHistory (getPositionKey demoGame.fen)).getD 0 :=
  ⟨((C8_getDrawStatus_spec demoGame).2
      { halfmoveClock := some 0, movesUntilFiftyMove := some 50,
        repetitionCount := 1, isApproachingFiftyMove := false,
        isApproachingRepetition := false } (by decide)).1,
   ((C8_getDrawStatus_spec demoGame).2
      { halfmoveClock := some 0, movesUntilFiftyMove := some 50,
        repetitionCount := 1, isApproachingFiftyMove := false,
        isApproachingRepetition := false } (by decide)).2.2.1⟩

/-- C9: `validateMove` is a pure probe — the post-call entity agrees with
the pre-call entity on every match field (the engine scratch position it
reloads is overwritten before any later read) — and on a non-ACTIVE match
it answers invalid with a state-describing reason, independently of the
rules engine. -/
theorem C9_validateMove_readonly (R : ChessRules) (g : Game) (m : String) :
    ((Game.validateMove R g m).2.moveHistory = g.moveHistory ∧
     (Game.validateMove R g m).2.fen = g.fen ∧
     (Game.validateMove R g m).2.positionHistory = g.positionHistory ∧
     (Game.validateMove R g m).2.status = g.status ∧
     (Game.validateMove R g m).2.currentTurn = g.currentTurn ∧
     (Game.validateMove R g m).2.result = g.result ∧
     (Game.validateMove R g m).2.drawDetails = g.drawDetails ∧
     (Game.validateMove R g m).2.drawOfferFrom = g.drawOfferFrom ∧
     (Game.validateMove R g m).2.pauseRequestedBy = g.pauseRequestedBy ∧
     (Game.validateMove R g m).2.createdAt = g.createdAt ∧
     (Game.validateMove R g m).2.updatedAt = g.updatedAt ∧
     (Game.validateMove R g m).2.lastMoveAt = g.lastMoveAt ∧
     (Game.validateMove R g m).2.pgn = g.pgn ∧
     (Game.validateMove R g m).2.timeControl = g.timeControl ∧
     (Game.validateMove R g m).2.whiteTimeRemaining = g.whiteTimeRemaining ∧
     (Game.validateMove R g m).2.blackTimeRemaining = g.blackTimeRemaining ∧
     (Game.validateMove R g m).2.invalidMoveCounts = g.invalidMoveCounts ∧
     (Game.validateMove R g m).2.id = g.id ∧
     (Game.validateMove R g m).2.whitePlayerId = g.whitePlayerId ∧
     (Game.validateMove R g m).2.blackPlayerId = g.blackPlayerId) ∧
    (g.status ≠ GameStatus.active →
      (Game.validateMove R g m).1.valid = false ∧
      ∀ R', (Game.validateMove R g m).1 = (Game.validateMove R' g m).1) ∧
    (g.status = GameStatus.paused →
      (Game.validateMove R g m).1.reason = some "Game is paused") ∧
    (g.status = GameStatus.completed →
      (Game.validateMove R g m).1.reason
        = some "Cannot validate moves in inactive games") := by
  cases hs : g.status with
  | active =>
    refine ⟨?_, fun hna => absurd rfl hna, fun hp => (nomatch hp),
      fun hc => (nomatch hc)⟩
    simp [Game.validateMove, hs]
  | paused =>
    refine ⟨?_, fun _ => ⟨?_, fun R' => ?_⟩, fun _ => ?_,
      fun hc => (nomatch hc)⟩ <;>
      simp [Game.validateMove, hs]
  | completed =>
    refine ⟨?_, fun _ => ⟨?_, fun R' => ?_⟩, fun hp => (nomatch hp),
      fun _ => ?_⟩ <;>
      simp [Game.validateMove, hs]

/-- C9 witness: probing a PAUSED match answers invalid with the pause
reason and leaves the move log untouched. -/
theorem C9_witness :
    (Game.validateMove toyRules demoPaused "e4").1.valid = false ∧
    (Game.validateMove toyRules demoPaused "e4").1.reason
      = some "Game is paused" ∧
    (Game.validateMove toyRules demoPaused "e4").2.moveHistory
      = demoPaused.moveHistory :=
  ⟨((C9_validateMove_readonly toyRules demoPaused "e4").2.1 (by decide)).1,
   (C9_validateMove_readonly toyRules demoPaused "e4").2.2.1 rfl,
   (C9_validateMove_readonly toyRules demoPaused "e4").1.1⟩

lemma gameCopy_status (R : ChessRules) (g : Game) :
    (gameCopy R g).status = g.status := rfl

lemma countActiveGames_le_length (R : ChessRules) (st : Storage) :
    countActiveGames R st ≤ st.length := by
  induction st with
  | nil => exact Nat.le_refl 0
  | cons g t ih =>
    show ((gameCopy R g :: List.map (gameCopy R) t).filter
      (fun x => x.status == GameStatus.active)).length ≤ t.length + 1
    cases hpa : ((gameCopy R g).status == GameStatus.active) with
    | true =>
      simp only [List.filter_cons, hpa, if_true, List.length_cons]
      exact Nat.succ_le_succ ih
    | false =>
      simp only [List.filter_cons, hpa, Bool.false_eq_true, if_false]
      exact Nat.le_succ_of_le ih

lemma countActiveGames_lt_length (R : ChessRules) (st : Storage) (g0 : Game)
    (hmem : g0 ∈ st) (hns : g0.status ≠ GameStatus.active) :
    countActiveGames R st < st.length := by
  induction st with
  | nil => cases hmem
  | cons g t ih =>
    show ((gameCopy R g :: List.map (gameCopy R) t).filter
      (fun x => x.status == GameStatus.active)).length < t.length + 1
    rcases List.mem_cons.mp hmem with hg | hmem'
    · have hpa : ((gameCopy R g).status == GameStatus.active) = false := by
        rw [gameCopy_status, ← hg]
        exact beq_eq_false_iff_ne.mpr hns
      simp only [List.filter_cons, hpa, Bool.false_eq_true, if_false]
      exact Nat.lt_succ_of_le (countActiveGames_le_length R t)
    · cases hpa : ((gameCopy R g).status == GameStatus.active) with
      | true =>
        simp only [List.filter_cons, hpa, if_true, List.length_cons]
        exact Nat.succ_lt_succ (ih hmem')
      | false =>
        simp only [List.filter_cons, hpa, Bool.false_eq_true, if_false]
        exact Nat.lt_succ_of_le (Nat.le_of_lt (ih hmem'))

/-- C10: a PAUSED match does not count toward the admission ceiling — on a
store holding the ceiling number of matches of which one is PAUSED,
`createGame` succeeds (admission counts only matches whose status is
exactly ACTIVE), constructing and persisting a fresh ACTIVE match. -/
theorem C10_paused_not_counted (R : ChessRules) (st : Storage)
    (newId w b : String) (tc : Option TimeControl) (now : Nat)
    (hlen : st.length = GameManager.MAX_CONCURRENT_GAMES)
    (g0 : Game) (hmem : g0 ∈ st) (hp : g0.status = GameStatus.paused) :
    GameManager.createGame R st newId w b tc now
      = (Except.ok (Game.new newId w b tc now),
         saveGame R st (Game.new newId w b tc now)) := by
  have hns : g0.status ≠ GameStatus.active := by
    rw [hp]
    exact fun hcon => nomatch hcon
  have hlt : countActiveGames R st < GameManager.MAX_CONCURRENT_GAMES := by
    rw [← hlen]
    exact countActiveGames_lt_length R st g0 hmem hns
  unfold GameManager.createGame
  rw [if_neg (by omega)]

/-- C10 witness: a concrete store of five matches, the second PAUSED, admits
a sixth match. -/
theorem C10_witness :
    GameManager.createGame toyRules pausedStore "f" "p" "q" none 9
      = (Except.ok (Game.new "f" "p" "q" none 9),
         saveGame toyRules pausedStore (Game.new "f" "p" "q" none 9)) :=
  C10_paused_not_counted toyRules pausedStore "f" "p" "q" none 9 rfl
    demoPausedB (List.mem_cons_of_mem _ (List.mem_cons_self _ _)) rfl

end ChessMCP
